import Mathlib

/-!
Verification of the sliding-window telemetry buffer and display-bounds
computation of the `sensors-mon` terminal dashboard (`src/main.rs`).

The program polls lm-sensors / NVML readings every tick, keeps a
fixed-capacity window of `(tick-index, value)` samples for three charted
metrics (`tctl`, `coolant1`, `gpu_temp`), running all-time min/max pairs
for five metrics, and a shared x-axis window `[start, end]`.  The y-axis
bounds of the chart are derived each frame from the current window
contents with sentinel filtering, padding and one-sided clamping.

`f64` values are modelled as `ℚ`: every operation the buffer and bounds
code performs on them (comparison, `min`/`max`, adding or subtracting the
constant padding, incrementing a tick counter by 1) is exact on the
ranges involved, so the rational model is faithful.  Sensor acquisition
(`get_lmsensors_vals`, `get_nvml_values`) is an external collaborator:
its results are passed in as snapshot structures.
-/

namespace SensorsMon

/-- `const INTERVAL: u64 = 2000;` -/
def INTERVAL : ℕ := 2000

/-- `const WINDOW_SIZE: u64 = (5 * 60) / (INTERVAL / 1000);` (u64 division). -/
def WINDOW_SIZE : ℕ := (5 * 60) / (INTERVAL / 1000)

/-- `const BOUNDS_PADDING: f64 = 2.0;` -/
def BOUNDS_PADDING : ℚ := 2

/-- `const BOUNDS_MIN: f64 = 25.0;` -/
def BOUNDS_MIN : ℚ := 25

/-- `const BOUNDS_MAX: f64 = 90.0;` -/
def BOUNDS_MAX : ℚ := 90

/-- `struct LmSensorsValues` — one lm-sensors snapshot. -/
structure LmSensorsValues where
  tctl : ℚ
  tccd1 : ℚ
  coolant1 : ℚ
  coolant2 : ℚ
deriving DecidableEq

/-- `struct NvmlValues` — one NVML snapshot. -/
structure NvmlValues where
  temp : ℚ
  watts : ℚ
  mem_used : ℕ
  mem_total : ℕ
deriving DecidableEq

/-- `struct App` — the whole mutable state of the program (the sensor
handles `sensors`/`nvml` are external collaborators and are not part of
the modelled state). -/
structure App where
  tctl : List (ℚ × ℚ)
  tctl_mm : ℚ × ℚ
  tccd1 : ℚ
  tccd1_mm : ℚ × ℚ
  coolant1 : List (ℚ × ℚ)
  coolant1_mm : ℚ × ℚ
  coolant2 : ℚ
  coolant2_mm : ℚ × ℚ
  gpu_temp : List (ℚ × ℚ)
  gpu_temp_mm : ℚ × ℚ
  gpu_w : ℚ
  gpu_mem_used : ℕ
  gpu_mem_max : ℕ
  window : ℚ × ℚ
deriving DecidableEq

/-- The pre-fill loop plus the one real sample of `App::new`
(`main.rs:169-185`): `capacity - 1` placeholder `(i, 0.0)` samples for
`i in 0..(cap - 1)` followed by `((cap - 1) as f64, first)`.  The source
fixes `cap = WINDOW_SIZE`; it is a parameter here so that the
spec's capacity-5 scenario can be stated as well. -/
def initSeries (cap : ℕ) (first : ℚ) : List (ℚ × ℚ) :=
  (List.range (cap - 1)).map (fun (i : ℕ) => ((i : ℚ), (0 : ℚ))) ++
    [(((cap - 1 : ℕ) : ℚ), first)]

/-- `App::new` (`main.rs:162-205`), with the two initial sensor snapshots
passed in.  `window` is initialized to `[0.0, WINDOW_SIZE as f64]`. -/
def App.new (cap : ℕ) (values : LmSensorsValues) (nvml_values : NvmlValues) :
    App where
  tctl := initSeries cap values.tctl
  tctl_mm := (values.tctl, values.tctl)
  tccd1 := values.tccd1
  tccd1_mm := (values.tccd1, values.tccd1)
  coolant1 := initSeries cap values.coolant1
  coolant1_mm := (values.coolant1, values.coolant1)
  coolant2 := values.coolant2
  coolant2_mm := (values.coolant2, values.coolant2)
  gpu_temp := initSeries cap nvml_values.temp
  gpu_temp_mm := (nvml_values.temp, nvml_values.temp)
  gpu_w := nvml_values.watts
  gpu_mem_used := nvml_values.mem_used
  gpu_mem_max := nvml_values.mem_total
  window := (0, (cap : ℚ))

/-- One running min/max update of `App::on_tick` (`main.rs:251-280`):
`if v < mm.0 { mm.0 = v }` and `if v > mm.1 { mm.1 = v }`. -/
def mmUpdate (mm : ℚ × ℚ) (v : ℚ) : ℚ × ℚ :=
  (if v < mm.1 then v else mm.1, if v > mm.2 then v else mm.2)

/-- `App::on_tick` (`main.rs:228-281`), with the tick's sensor snapshots
passed in.  Both window bounds are incremented, the oldest sample of each
charted series is removed (`Vec::remove(0)` = `List.tail` on the nonempty
vectors involved), a sample at x = the new `window[1]` is pushed, scalar
metrics are overwritten, and the five min/max pairs are folded. -/
def App.on_tick (a : App) (vals : LmSensorsValues) (nvml_vals : NvmlValues) :
    App :=
  let window : ℚ × ℚ := (a.window.1 + 1, a.window.2 + 1)
  let w : ℚ := window.2
  { tctl := a.tctl.tail ++ [(w, vals.tctl)]
    tctl_mm := mmUpdate a.tctl_mm vals.tctl
    tccd1 := vals.tccd1
    tccd1_mm := mmUpdate a.tccd1_mm vals.tccd1
    coolant1 := a.coolant1.tail ++ [(w, vals.coolant1)]
    coolant1_mm := mmUpdate a.coolant1_mm vals.coolant1
    coolant2 := vals.coolant2
    coolant2_mm := mmUpdate a.coolant2_mm vals.coolant2
    gpu_temp := a.gpu_temp.tail ++ [(w, nvml_vals.temp)]
    gpu_temp_mm := mmUpdate a.gpu_temp_mm nvml_vals.temp
    gpu_w := nvml_vals.watts
    gpu_mem_used := nvml_vals.mem_used
    gpu_mem_max := nvml_vals.mem_total
    window := window }

/-- The run loop's repeated `on_tick` calls (`App::run`, `main.rs:207-226`),
with the sequence of sensor snapshots passed in. -/
def runTicks (a : App) (ticks : List (LmSensorsValues × NvmlValues)) : App :=
  ticks.foldl (fun s t => s.on_tick t.1 t.2) a

/-- The per-position triple of samples that `render_temps_chart` iterates
over: `self.tctl.iter().zip(self.coolant1.iter()).zip(self.gpu_temp.iter())`
(`main.rs:493-497`). -/
def positions (a : App) : List (((ℚ × ℚ) × (ℚ × ℚ)) × (ℚ × ℚ)) :=
  (a.tctl.zip a.coolant1).zip a.gpu_temp

/-- The cross-series minimum at one position:
`v.0.0.1.min(v.0.1.1).min(v.1.1)` (`main.rs:498`). -/
def min3 (v : ((ℚ × ℚ) × (ℚ × ℚ)) × (ℚ × ℚ)) : ℚ :=
  min (min v.1.1.2 v.1.2.2) v.2.2

/-- The cross-series maximum at one position:
`v.0.0.1.max(v.0.1.1).max(v.1.1)` (`main.rs:514`). -/
def max3 (v : ((ℚ × ℚ) × (ℚ × ℚ)) × (ℚ × ℚ)) : ℚ :=
  max (max v.1.1.2 v.1.2.2) v.2.2

/-- `Iterator::min_by` with the comparator of `main.rs:500-505` (which
never returns `Equal`); on values it computes the numeric minimum, and
`none` on an empty iterator. -/
def foldMin : List ℚ → Option ℚ
  | [] => none
  | x :: xs => some (xs.foldl min x)

/-- `Iterator::max_by` with the comparator of `main.rs:516-521`; the
numeric maximum, `none` on an empty iterator. -/
def foldMax : List ℚ → Option ℚ
  | [] => none
  | x :: xs => some (xs.foldl max x)

/-- The tail of the `y_min` pipeline (`main.rs:499-507`): filter
`*v >= 0.01`, take the minimum, pad and clamp from below,
`unwrap_or(BOUNDS_MIN)`. -/
def lowBound (l : List ℚ) : ℚ :=
  match foldMin (l.filter (fun v => 1 / 100 ≤ v)) with
  | none => BOUNDS_MIN
  | some v => max (v - BOUNDS_PADDING) BOUNDS_MIN

/-- The tail of the `y_max` pipeline (`main.rs:515-523`): filter
`*v >= 0.01`, take the maximum, pad and clamp from above,
`unwrap_or(BOUNDS_MAX)`. -/
def highBound (l : List ℚ) : ℚ :=
  match foldMax (l.filter (fun v => 1 / 100 ≤ v)) with
  | none => BOUNDS_MAX
  | some v => min (v + BOUNDS_PADDING) BOUNDS_MAX

/-- `y_min` of `render_temps_chart` (`main.rs:493-507`). -/
def y_min (a : App) : ℚ := lowBound ((positions a).map min3)

/-- `y_max` of `render_temps_chart` (`main.rs:509-523`). -/
def y_max (a : App) : ℚ := highBound ((positions a).map max3)

/-- The value handed to the first coolant gauge in `App::draw`
(`main.rs:304`): `let c1 = self.coolant1.last().unwrap().1;`. -/
def coolantGauge1Val (a : App) : Option ℚ := a.coolant1.getLast?.map Prod.snd

/-- The value handed to the gauge whose block is titled `COOLANT_2_LABEL`
in `App::draw` (`main.rs:309`): `let c2 = self.coolant1.last().unwrap().1;`
— it reads `coolant1`, not `coolant2`. -/
def coolantGauge2Val (a : App) : Option ℚ := a.coolant1.getLast?.map Prod.snd

/-- The "Curr" column of `render_temps_table` (`main.rs:403-430`), rows in
source order: CPU CTL, CPU CCD, Coolant 1, Coolant 2, GPU. -/
def tableCurr (a : App) : List (Option ℚ) :=
  [a.tctl.getLast?.map Prod.snd, some a.tccd1,
   a.coolant1.getLast?.map Prod.snd, some a.coolant2,
   a.gpu_temp.getLast?.map Prod.snd]

/-- Modelled from the spec: the bounds computation that claim C8
describes, in which a position whose cross-series min **or** max is below
the sentinel threshold is excluded from **both** bound computations; used
only to compare against the source's `y_max`, which filters each pipeline
by its own aggregate. -/
def highBoundClaimFiltered (a : App) : ℚ :=
  match foldMax (((positions a).filter
      (fun v => 1 / 100 ≤ min3 v ∧ 1 / 100 ≤ max3 v)).map max3) with
  | none => BOUNDS_MAX
  | some v => min (v + BOUNDS_PADDING) BOUNDS_MAX

/-! ### Helper lemmas -/

lemma initSeries_length (cap : ℕ) (h : 1 ≤ cap) (first : ℚ) :
    (initSeries cap first).length = cap := by
  unfold initSeries
  rw [List.length_append, List.length_map, List.length_range]
  simp only [List.length_cons, List.length_nil]
  omega

lemma initSeries_getLast? (cap : ℕ) (first : ℚ) :
    (initSeries cap first).getLast? = some (((cap - 1 : ℕ) : ℚ), first) :=
  List.getLast?_concat _

/-- Over positions drawn from three identical series, the cross-series
minimum at each position is just that position's sample value. -/
lemma map_min3_zip_self (l : List (ℚ × ℚ)) :
    ((l.zip l).zip l).map min3 = l.map Prod.snd := by
  induction l with
  | nil => rfl
  | cons x xs ih => simp [min3, ih]

lemma filter_eq_nil_of_lt (l : List ℚ) (h : ∀ v ∈ l, v < 1 / 100) :
    l.filter (fun v => 1 / 100 ≤ v) = [] := by
  rw [List.filter_eq_nil_iff]
  intro v hv
  simpa using (h v hv).not_le

lemma lowBound_sentinel_concat (l : List ℚ) (c : ℚ)
    (hl : ∀ v ∈ l, v < 1 / 100) (hc : 1 / 100 ≤ c) :
    lowBound (l ++ [c]) = max (c - BOUNDS_PADDING) BOUNDS_MIN := by
  unfold lowBound
  rw [List.filter_append, filter_eq_nil_of_lt l hl]
  have h2 : List.filter (fun v => decide ((1 : ℚ) / 100 ≤ v)) [c] = [c] := by
    simp only [List.filter_cons, List.filter_nil, decide_eq_true_eq, if_pos hc]
  rw [List.nil_append, h2]
  rfl

lemma on_tick_window (a : App) (v : LmSensorsValues) (n : NvmlValues) :
    (a.on_tick v n).window = (a.window.1 + 1, a.window.2 + 1) := rfl

lemma runTicks_cons (a : App) (t : LmSensorsValues × NvmlValues)
    (ts : List (LmSensorsValues × NvmlValues)) :
    runTicks a (t :: ts) = runTicks (a.on_tick t.1 t.2) ts := rfl

lemma runTicks_concat (a : App) (ts : List (LmSensorsValues × NvmlValues))
    (t : LmSensorsValues × NvmlValues) :
    runTicks a (ts ++ [t]) = (runTicks a ts).on_tick t.1 t.2 := by
  simp [runTicks]

lemma runTicks_window (ticks : List (LmSensorsValues × NvmlValues)) :
    ∀ a : App, (runTicks a ticks).window =
      (a.window.1 + ticks.length, a.window.2 + ticks.length) := by
  induction ticks with
  | nil => intro a; simp [runTicks]
  | cons t ts ih =>
      intro a
      rw [runTicks_cons, ih, on_tick_window]
      simp
      constructor <;> ring

lemma runTicks_lengths (cap : ℕ) (hcap : 1 ≤ cap)
    (ticks : List (LmSensorsValues × NvmlValues)) :
    ∀ a : App, a.tctl.length = cap → a.coolant1.length = cap →
      a.gpu_temp.length = cap →
      (runTicks a ticks).tctl.length = cap ∧
      (runTicks a ticks).coolant1.length = cap ∧
      (runTicks a ticks).gpu_temp.length = cap := by
  induction ticks with
  | nil => intro a h1 h2 h3; exact ⟨h1, h2, h3⟩
  | cons t ts ih =>
      intro a h1 h2 h3
      rw [runTicks_cons]
      apply ih <;> simp [App.on_tick] <;> omega

lemma lowBound_ge (l : List ℚ) : BOUNDS_MIN ≤ lowBound l := by
  unfold lowBound
  cases foldMin (l.filter fun v => 1 / 100 ≤ v) with
  | none => exact le_rfl
  | some v => exact le_max_right _ _

lemma highBound_le (l : List ℚ) : highBound l ≤ BOUNDS_MAX := by
  unfold highBound
  cases foldMax (l.filter fun v => 1 / 100 ≤ v) with
  | none => exact le_rfl
  | some v => exact min_le_right _ _

lemma lowBound_of_all_lt (l : List ℚ) (h : ∀ v ∈ l, v < 1 / 100) :
    lowBound l = BOUNDS_MIN := by
  have hnil : l.filter (fun v => 1 / 100 ≤ v) = [] := by
    rw [List.filter_eq_nil_iff]
    intro v hv
    simpa using (h v hv).not_le
  unfold lowBound
  rw [hnil]
  rfl

lemma highBound_of_all_lt (l : List ℚ) (h : ∀ v ∈ l, v < 1 / 100) :
    highBound l = BOUNDS_MAX := by
  have hnil : l.filter (fun v => 1 / 100 ≤ v) = [] := by
    rw [List.filter_eq_nil_iff]
    intro v hv
    simpa using (h v hv).not_le
  unfold highBound
  rw [hnil]
  rfl

lemma mmUpdate_bounds (mm : ℚ × ℚ) (v : ℚ) :
    (mmUpdate mm v).1 ≤ mm.1 ∧ (mmUpdate mm v).1 ≤ v ∧
    mm.2 ≤ (mmUpdate mm v).2 ∧ v ≤ (mmUpdate mm v).2 := by
  unfold mmUpdate
  refine ⟨?_, ?_, ?_, ?_⟩ <;> dsimp only <;> split <;>
    first
      | exact le_rfl
      | exact le_of_lt (by assumption)
      | exact le_of_not_lt (by assumption)

lemma foldl_mmUpdate_le (l : List ℚ) :
    ∀ mm : ℚ × ℚ, (l.foldl mmUpdate mm).1 ≤ mm.1 ∧
      mm.2 ≤ (l.foldl mmUpdate mm).2 := by
  induction l with
  | nil => intro mm; exact ⟨le_rfl, le_rfl⟩
  | cons x xs ih =>
      intro mm
      have h1 := ih (mmUpdate mm x)
      have h2 := mmUpdate_bounds mm x
      exact ⟨le_trans h1.1 h2.1, le_trans h2.2.2.1 h1.2⟩

lemma foldl_mmUpdate_mem (l : List ℚ) :
    ∀ mm : ℚ × ℚ, ∀ v ∈ l, (l.foldl mmUpdate mm).1 ≤ v ∧
      v ≤ (l.foldl mmUpdate mm).2 := by
  induction l with
  | nil => intro mm v hv; cases hv
  | cons x xs ih =>
      intro mm v hv
      rcases List.mem_cons.mp hv with rfl | hv
      · have h1 := foldl_mmUpdate_le xs (mmUpdate mm v)
        have h2 := mmUpdate_bounds mm v
        exact ⟨le_trans h1.1 h2.2.1, le_trans h2.2.2.2 h1.2⟩
      · exact ih (mmUpdate mm x) v hv

lemma foldl_mmUpdate_bracket (x : ℚ) (l : List ℚ) :
    ∀ v ∈ x :: l, (l.foldl mmUpdate (x, x)).1 ≤ v ∧
      v ≤ (l.foldl mmUpdate (x, x)).2 := by
  intro v hv
  rcases List.mem_cons.mp hv with rfl | hv
  · exact ⟨(foldl_mmUpdate_le l (v, v)).1, (foldl_mmUpdate_le l (v, v)).2⟩
  · exact foldl_mmUpdate_mem l (x, x) v hv

/-- The five running min/max pairs of the final state are folds of
`mmUpdate` over the per-metric snapshot values. -/
lemma runTicks_mm (ticks : List (LmSensorsValues × NvmlValues)) :
    ∀ a : App,
      (runTicks a ticks).tctl_mm =
        (ticks.map (fun t => t.1.tctl)).foldl mmUpdate a.tctl_mm ∧
      (runTicks a ticks).tccd1_mm =
        (ticks.map (fun t => t.1.tccd1)).foldl mmUpdate a.tccd1_mm ∧
      (runTicks a ticks).coolant1_mm =
        (ticks.map (fun t => t.1.coolant1)).foldl mmUpdate a.coolant1_mm ∧
      (runTicks a ticks).coolant2_mm =
        (ticks.map (fun t => t.1.coolant2)).foldl mmUpdate a.coolant2_mm ∧
      (runTicks a ticks).gpu_temp_mm =
        (ticks.map (fun t => t.2.temp)).foldl mmUpdate a.gpu_temp_mm := by
  induction ticks with
  | nil => intro a; exact ⟨rfl, rfl, rfl, rfl, rfl⟩
  | cons t ts ih =>
      intro a
      rw [runTicks_cons]
      simpa [App.on_tick] using ih (a.on_tick t.1 t.2)

lemma min3_le_max3 (p : ((ℚ × ℚ) × (ℚ × ℚ)) × (ℚ × ℚ)) : min3 p ≤ max3 p :=
  le_trans (min_le_right _ _) (le_max_right _ _)

lemma lowBound_drop_mid (l1 l2 : List ℚ) (c : ℚ) (hc : c < 1 / 100) :
    lowBound (l1 ++ c :: l2) = lowBound (l1 ++ l2) := by
  unfold lowBound
  rw [List.filter_append, List.filter_append, List.filter_cons,
    if_neg (by simpa using hc.not_le)]

lemma highBound_drop_mid (l1 l2 : List ℚ) (c : ℚ) (hc : c < 1 / 100) :
    highBound (l1 ++ c :: l2) = highBound (l1 ++ l2) := by
  unfold highBound
  rw [List.filter_append, List.filter_append, List.filter_cons,
    if_neg (by simpa using hc.not_le)]

lemma on_tick_tctl (a : App) (v : LmSensorsValues) (n : NvmlValues) :
    (a.on_tick v n).tctl = a.tctl.tail ++ [(a.window.2 + 1, v.tctl)] := rfl

lemma on_tick_coolant1 (a : App) (v : LmSensorsValues) (n : NvmlValues) :
    (a.on_tick v n).coolant1 =
      a.coolant1.tail ++ [(a.window.2 + 1, v.coolant1)] := rfl

lemma on_tick_gpu_temp (a : App) (v : LmSensorsValues) (n : NvmlValues) :
    (a.on_tick v n).gpu_temp = a.gpu_temp.tail ++ [(a.window.2 + 1, n.temp)] :=
  rfl

lemma range'_succ_one (s n : ℕ) :
    List.range' s (n + 1) = s :: List.range' (s + 1) n := rfl

lemma range'_concat_one (s n : ℕ) :
    List.range' s (n + 1) = List.range' s n ++ [s + n] := by
  induction n generalizing s with
  | zero => simp
  | succ m ih =>
      rw [range'_succ_one, ih (s + 1), range'_succ_one]
      simp [List.cons_append]
      omega

lemma range'_eq_cons (s n : ℕ) (h : 1 ≤ n) :
    List.range' s n = s :: List.range' (s + 1) (n - 1) := by
  conv_lhs => rw [show n = (n - 1) + 1 from by omega]
  rw [range'_succ_one]

/-- The x-coordinates (tick indices) held by each charted series after
`k` ticks: the surviving pre-fill indices `k, …, cap-1`, then the pushed
indices, which start at `cap + 1` (not `cap`) because `window[1]` starts
at `cap` and the sample is pushed at the incremented `window[1]`. -/
def tickFsts (cap k : ℕ) : List ℕ :=
  List.range' k (cap - k) ++
    List.range' (cap + 1 + (k - min k cap)) (min k cap)

lemma tickFsts_step (cap k : ℕ) (h : 1 ≤ cap) :
    (tickFsts cap k).tail ++ [cap + 1 + k] = tickFsts cap (k + 1) := by
  unfold tickFsts
  by_cases hk : k < cap
  · rw [Nat.min_eq_left (Nat.le_of_lt hk), Nat.min_eq_left hk]
    simp only [Nat.sub_self, Nat.add_zero]
    rw [range'_eq_cons k (cap - k) (by omega), List.cons_append,
      List.tail_cons, List.append_assoc, ← range'_concat_one (cap + 1) k,
      Nat.sub_sub]
  · have hck : cap ≤ k := Nat.le_of_not_lt hk
    rw [Nat.min_eq_right hck, Nat.min_eq_right (Nat.le_succ_of_le hck)]
    rw [show cap - k = 0 from by omega, show cap - (k + 1) = 0 from by omega]
    simp only [List.range'_zero, List.nil_append]
    rw [show cap + 1 + (k - cap) = k + 1 from by omega,
      show cap + 1 + (k + 1 - cap) = k + 2 from by omega]
    rw [range'_eq_cons (k + 1) cap h, List.tail_cons,
      show cap + 1 + k = (k + 2) + (cap - 1) from by omega,
      ← range'_concat_one (k + 2) (cap - 1),
      show cap - 1 + 1 = cap from by omega]

lemma initSeries_map_fst (cap : ℕ) (h : 1 ≤ cap) (x : ℚ) :
    (initSeries cap x).map Prod.fst =
      (tickFsts cap 0).map (fun i : ℕ => (i : ℚ)) := by
  unfold initSeries tickFsts
  simp only [Nat.zero_min, Nat.sub_zero, Nat.sub_self, Nat.add_zero,
    List.range'_zero, List.append_nil]
  rw [List.map_append, List.map_map, ← List.range_eq_range']
  conv_rhs => rw [show cap = (cap - 1) + 1 from by omega, List.range_succ]
  rw [List.map_append]
  rfl

lemma fsts_evolution (cap k : ℕ) (hcap : 1 ≤ cap) (l : List (ℚ × ℚ))
    (w x : ℚ)
    (hl : l.map Prod.fst = (tickFsts cap k).map (fun i : ℕ => (i : ℚ)))
    (hw : w = (cap : ℚ) + k) :
    (l.tail ++ [(w + 1, x)]).map Prod.fst =
      (tickFsts cap (k + 1)).map (fun i : ℕ => (i : ℚ)) := by
  rw [List.map_append, List.map_tail, hl, ← List.map_tail]
  have hx : ([((w + 1 : ℚ), x)].map Prod.fst) = [((cap + 1 + k : ℕ) : ℚ)] := by
    simp [hw]
    ring
  rw [hx,
    show [((cap + 1 + k : ℕ) : ℚ)] =
      List.map (fun i : ℕ => (i : ℚ)) [cap + 1 + k] from rfl,
    ← List.map_append, tickFsts_step cap k hcap]

/-- After `k` ticks, the x-coordinates of all three charted series follow
the `tickFsts` closed form. -/
lemma runTicks_fsts (cap : ℕ) (hcap : 1 ≤ cap) (v0 : LmSensorsValues)
    (n0 : NvmlValues) (ticks : List (LmSensorsValues × NvmlValues)) :
    ((runTicks (App.new cap v0 n0) ticks).tctl.map Prod.fst =
      (tickFsts cap ticks.length).map (fun i : ℕ => (i : ℚ))) ∧
    ((runTicks (App.new cap v0 n0) ticks).coolant1.map Prod.fst =
      (tickFsts cap ticks.length).map (fun i : ℕ => (i : ℚ))) ∧
    ((runTicks (App.new cap v0 n0) ticks).gpu_temp.map Prod.fst =
      (tickFsts cap ticks.length).map (fun i : ℕ => (i : ℚ))) := by
  induction ticks using List.reverseRecOn with
  | nil =>
      exact ⟨initSeries_map_fst cap hcap _, initSeries_map_fst cap hcap _,
        initSeries_map_fst cap hcap _⟩
  | append_singleton ts t ih =>
      rw [runTicks_concat]
      have hw2 : (runTicks (App.new cap v0 n0) ts).window.2 =
          (cap : ℚ) + ts.length := by
        rw [runTicks_window]
        simp [App.new]
      have hlen : (ts ++ [t]).length = ts.length + 1 := by simp
      rw [hlen, on_tick_tctl, on_tick_coolant1, on_tick_gpu_temp]
      exact ⟨fsts_evolution cap ts.length hcap _ _ _ ih.1 hw2,
        fsts_evolution cap ts.length hcap _ _ _ ih.2.1 hw2,
        fsts_evolution cap ts.length hcap _ _ _ ih.2.2 hw2⟩

lemma tickFsts_head? (cap k : ℕ) (h : 1 ≤ cap) :
    (tickFsts cap k).head? = some (if k < cap then k else k + 1) := by
  unfold tickFsts
  by_cases hk : k < cap
  · rw [if_pos hk, range'_eq_cons k (cap - k) (by omega), List.cons_append]
    rfl
  · have hck : cap ≤ k := Nat.le_of_not_lt hk
    rw [if_neg hk, show cap - k = 0 from by omega, List.range'_zero,
      List.nil_append, Nat.min_eq_right hck,
      show cap + 1 + (k - cap) = k + 1 from by omega,
      range'_eq_cons (k + 1) cap h]
    rfl

lemma tickFsts_getLast? (cap k : ℕ) (h : 1 ≤ cap) :
    (tickFsts cap k).getLast? = some (if k = 0 then cap - 1 else cap + k) := by
  unfold tickFsts
  by_cases hk : k = 0
  · subst hk
    rw [if_pos rfl]
    simp only [Nat.zero_min, Nat.sub_zero, Nat.sub_self, Nat.add_zero,
      List.range'_zero, List.append_nil]
    conv_lhs => rw [show cap = (cap - 1) + 1 from by omega,
      range'_concat_one]
    rw [List.getLast?_concat]
    simp
  · have hk1 : 1 ≤ k := by omega
    have hmin : 1 ≤ min k cap := by omega
    rw [if_neg hk]
    have hne : List.range' (cap + 1 + (k - min k cap)) (min k cap) ≠ [] := by
      rw [show min k cap = (min k cap - 1) + 1 from by omega,
        range'_succ_one]
      exact List.cons_ne_nil _ _
    rw [List.getLast?_append_of_ne_nil _ hne]
    conv_lhs => rw [show min k cap = (min k cap - 1) + 1 from by omega,
      range'_concat_one]
    rw [List.getLast?_concat]
    congr 1
    omega

/-! ### Claims -/

/-- **C1** (counterexample). The claim asserts that for a capacity-5
series initialized with first value 40.0, one `advance(42.0)` yields
samples `[(1,0),(2,0),(3,0),(4,40.0),(5,42.0)]` and window `[1,5]`.  The
code pushes the new sample at the **new** `window[1]`, and `window` is
initialized to `[0, capacity]` (not `[0, capacity-1]`), so the appended
sample is `(6, 42.0)` and the window `[1,6]`. -/
theorem C1_counterexample :
    ¬ ((((App.new 5 ⟨40, 40, 40, 40⟩ ⟨40, 0, 0, 0⟩).on_tick
          ⟨42, 42, 42, 42⟩ ⟨42, 0, 0, 0⟩).tctl =
        [(1, 0), (2, 0), (3, 0), (4, 40), (5, 42)]) ∧
       (((App.new 5 ⟨40, 40, 40, 40⟩ ⟨40, 0, 0, 0⟩).on_tick
          ⟨42, 42, 42, 42⟩ ⟨42, 0, 0, 0⟩).window = (1, 5))) := by
  rintro ⟨-, hw⟩
  rw [on_tick_window] at hw
  norm_num [App.new] at hw

/-- **C1** (amended). `on_tick` evicts the oldest sample and appends the
new sample at x-coordinate equal to the **new** `window[1]` (= old
`window[1] + 1`); since `App::new` sets `window = [0, capacity]` while the
newest initial sample sits at tick `capacity - 1`, the first advance
appends at `last_tick_index + 2`.  Concretely, for capacity 5 and first
value 40.0, after `advance(42.0)` the samples are
`[(1,0),(2,0),(3,0),(4,40.0),(6,42.0)]` with min 40.0, max 42.0 and
window `[1,6]`. -/
theorem C1_amended :
    (∀ (a : App) (v : LmSensorsValues) (n : NvmlValues),
      ((a.on_tick v n).tctl.getLast? = some (a.window.2 + 1, v.tctl)) ∧
      (a.on_tick v n).window.2 = a.window.2 + 1) ∧
    (((App.new 5 ⟨40, 40, 40, 40⟩ ⟨40, 0, 0, 0⟩).on_tick
        ⟨42, 42, 42, 42⟩ ⟨42, 0, 0, 0⟩).tctl =
      [(1, 0), (2, 0), (3, 0), (4, 40), (6, 42)]) ∧
    (((App.new 5 ⟨40, 40, 40, 40⟩ ⟨40, 0, 0, 0⟩).on_tick
        ⟨42, 42, 42, 42⟩ ⟨42, 0, 0, 0⟩).tctl_mm = (40, 42)) ∧
    (((App.new 5 ⟨40, 40, 40, 40⟩ ⟨40, 0, 0, 0⟩).on_tick
        ⟨42, 42, 42, 42⟩ ⟨42, 0, 0, 0⟩).window = (1, 6)) := by
  have h4 : List.range 4 = [0, 1, 2, 3] := rfl
  refine ⟨fun a v n => ⟨?_, rfl⟩, ?_, ?_, ?_⟩
  · simp [App.on_tick]
  · norm_num [App.new, App.on_tick, initSeries, h4]
  · norm_num [App.new, App.on_tick, mmUpdate]
  · rw [on_tick_window]
    norm_num [App.new]

/-- **C2** (confirmed). Every windowed series (`tctl`, `coolant1`,
`gpu_temp`) has exactly `WINDOW_SIZE = 150` samples after initialization
and after every sequence of ticks: each tick removes one oldest sample
and appends one new one. -/
theorem C2_fixed_length (v0 : LmSensorsValues) (n0 : NvmlValues)
    (ticks : List (LmSensorsValues × NvmlValues)) :
    WINDOW_SIZE = 150 ∧
    (runTicks (App.new WINDOW_SIZE v0 n0) ticks).tctl.length = WINDOW_SIZE ∧
    (runTicks (App.new WINDOW_SIZE v0 n0) ticks).coolant1.length = WINDOW_SIZE ∧
    (runTicks (App.new WINDOW_SIZE v0 n0) ticks).gpu_temp.length = WINDOW_SIZE := by
  refine ⟨rfl, runTicks_lengths WINDOW_SIZE (by decide) ticks _ ?_ ?_ ?_⟩ <;>
    exact initSeries_length WINDOW_SIZE (by decide) _

/-- **C3** (counterexample). The claim asserts the low bound never
exceeds 90.0.  But the code only clamps `y_min` from below
(`.max(BOUNDS_MIN)`): in the reachable state obtained from `App::new`
when every sensor reads 100.0, the single real position gives
`y_min = 100 - 2 = 98 > 90`. -/
theorem C3_counterexample :
    y_min (App.new WINDOW_SIZE ⟨100, 100, 100, 100⟩ ⟨100, 0, 0, 0⟩) = 98 ∧
    ¬ (y_min (App.new WINDOW_SIZE ⟨100, 100, 100, 100⟩ ⟨100, 0, 0, 0⟩) ≤
        BOUNDS_MAX) := by
  have hy : y_min (App.new WINDOW_SIZE ⟨100, 100, 100, 100⟩ ⟨100, 0, 0, 0⟩)
      = max ((100 : ℚ) - BOUNDS_PADDING) BOUNDS_MIN := by
    unfold y_min positions App.new
    rw [map_min3_zip_self]
    unfold initSeries
    rw [List.map_append, List.map_map]
    apply lowBound_sentinel_concat
    · intro v hv
      rcases List.mem_map.mp hv with ⟨i, -, rfl⟩
      norm_num
    · norm_num
  rw [hy]
  norm_num [BOUNDS_PADDING, BOUNDS_MIN, BOUNDS_MAX]

/-- **C3** (amended). The clamping is one-sided: for every state, the
computed low bound is at least the floor 25.0 and the computed high bound
is at most the ceiling 90.0.  (The low bound can exceed 90.0 when all
real readings are high, and the high bound can fall below 25.0 when all
real readings are low.) -/
theorem C3_amended (a : App) : BOUNDS_MIN ≤ y_min a ∧ y_max a ≤ BOUNDS_MAX :=
  ⟨lowBound_ge _, highBound_le _⟩

lemma getLast_fst_eq (cap k : ℕ) (hcap : 1 ≤ cap) (l : List (ℚ × ℚ)) (w : ℚ)
    (hs : l.map Prod.fst = (tickFsts cap k).map (fun i : ℕ => (i : ℚ)))
    (hw : w = (cap : ℚ) + k) :
    l.getLast?.map Prod.fst = some (if k = 0 then w - 1 else w) := by
  rw [← List.getLast?_map, hs, List.getLast?_map, tickFsts_getLast? cap k hcap]
  by_cases hk : k = 0
  · subst hk
    rw [if_pos rfl, if_pos rfl, hw]
    simp only [Option.map_some']
    congr 1
    rw [Nat.cast_sub hcap]
    push_cast
    ring
  · rw [if_neg hk, if_neg hk, hw]
    simp only [Option.map_some']
    congr 1
    push_cast
    ring

lemma head_fst_eq (cap k : ℕ) (hcap : 1 ≤ cap) (l : List (ℚ × ℚ)) (w : ℚ)
    (hs : l.map Prod.fst = (tickFsts cap k).map (fun i : ℕ => (i : ℚ)))
    (hw : w = (cap : ℚ) + k) :
    l.head?.map Prod.fst = some (if k < cap then w - cap else w - cap + 1) := by
  rw [← List.head?_map, hs, List.head?_map, tickFsts_head? cap k hcap]
  by_cases hk : k < cap
  · rw [if_pos hk, if_pos hk, hw]
    simp only [Option.map_some']
    congr 1
    ring
  · rw [if_neg hk, if_neg hk, hw]
    simp only [Option.map_some']
    congr 1
    push_cast
    ring

/-- **C4** (counterexample). The claim asserts that immediately after
initialization every series' newest tick-index equals `window.end`.  But
`App::new` places the newest initial sample at tick `WINDOW_SIZE - 1 =
149` while `window` ends at `WINDOW_SIZE = 150`. -/
theorem C4_counterexample :
    (App.new WINDOW_SIZE ⟨40, 40, 40, 40⟩ ⟨40, 0, 0, 0⟩).tctl.getLast?.map
      Prod.fst = some 149 ∧
    (App.new WINDOW_SIZE ⟨40, 40, 40, 40⟩ ⟨40, 0, 0, 0⟩).window.2 = 150 ∧
    (149 : ℚ) ≠ 150 := by
  refine ⟨?_, ?_, by norm_num⟩
  · show (initSeries WINDOW_SIZE 40).getLast?.map Prod.fst = some 149
    rw [initSeries_getLast?]
    norm_num [WINDOW_SIZE, INTERVAL]
  · norm_num [App.new, WINDOW_SIZE, INTERVAL]

/-- **C4** (amended). The newest sample tick-index of every charted
series equals `window.end` from the first tick onward but equals
`window.end - 1` immediately after initialization; the oldest equals
`window.end - capacity` for the first `capacity - 1` ticks (and at
initialization) and `window.end - capacity + 1` from tick `capacity`
onward — one less than claimed while pre-fill samples remain, because
the tick indices skip the value `capacity` (the first pushed index is
`capacity + 1`). -/
theorem C4_amended (v0 : LmSensorsValues) (n0 : NvmlValues)
    (ticks : List (LmSensorsValues × NvmlValues)) :
    ((runTicks (App.new WINDOW_SIZE v0 n0) ticks).tctl.getLast?.map Prod.fst =
      some (if ticks.length = 0
        then (runTicks (App.new WINDOW_SIZE v0 n0) ticks).window.2 - 1
        else (runTicks (App.new WINDOW_SIZE v0 n0) ticks).window.2)) ∧
    ((runTicks (App.new WINDOW_SIZE v0 n0) ticks).coolant1.getLast?.map
        Prod.fst =
      some (if ticks.length = 0
        then (runTicks (App.new WINDOW_SIZE v0 n0) ticks).window.2 - 1
        else (runTicks (App.new WINDOW_SIZE v0 n0) ticks).window.2)) ∧
    ((runTicks (App.new WINDOW_SIZE v0 n0) ticks).gpu_temp.getLast?.map
        Prod.fst =
      some (if ticks.length = 0
        then (runTicks (App.new WINDOW_SIZE v0 n0) ticks).window.2 - 1
        else (runTicks (App.new WINDOW_SIZE v0 n0) ticks).window.2)) ∧
    ((runTicks (App.new WINDOW_SIZE v0 n0) ticks).tctl.head?.map Prod.fst =
      some (if ticks.length < WINDOW_SIZE
        then (runTicks (App.new WINDOW_SIZE v0 n0) ticks).window.2 - WINDOW_SIZE
        else (runTicks (App.new WINDOW_SIZE v0 n0) ticks).window.2 -
          WINDOW_SIZE + 1)) ∧
    ((runTicks (App.new WINDOW_SIZE v0 n0) ticks).coolant1.head?.map Prod.fst =
      some (if ticks.length < WINDOW_SIZE
        then (runTicks (App.new WINDOW_SIZE v0 n0) ticks).window.2 - WINDOW_SIZE
        else (runTicks (App.new WINDOW_SIZE v0 n0) ticks).window.2 -
          WINDOW_SIZE + 1)) ∧
    ((runTicks (App.new WINDOW_SIZE v0 n0) ticks).gpu_temp.head?.map Prod.fst =
      some (if ticks.length < WINDOW_SIZE
        then (runTicks (App.new WINDOW_SIZE v0 n0) ticks).window.2 - WINDOW_SIZE
        else (runTicks (App.new WINDOW_SIZE v0 n0) ticks).window.2 -
          WINDOW_SIZE + 1)) := by
  have hcap : 1 ≤ WINDOW_SIZE := by decide
  have hf := runTicks_fsts WINDOW_SIZE hcap v0 n0 ticks
  have hw2 : (runTicks (App.new WINDOW_SIZE v0 n0) ticks).window.2 =
      (WINDOW_SIZE : ℚ) + ticks.length := by
    rw [runTicks_window]
    simp [App.new]
  exact ⟨getLast_fst_eq WINDOW_SIZE ticks.length hcap _ _ hf.1 hw2,
    getLast_fst_eq WINDOW_SIZE ticks.length hcap _ _ hf.2.1 hw2,
    getLast_fst_eq WINDOW_SIZE ticks.length hcap _ _ hf.2.2 hw2,
    head_fst_eq WINDOW_SIZE ticks.length hcap _ _ hf.1 hw2,
    head_fst_eq WINDOW_SIZE ticks.length hcap _ _ hf.2.1 hw2,
    head_fst_eq WINDOW_SIZE ticks.length hcap _ _ hf.2.2 hw2⟩

/-- **C5** (counterexample). The claim asserts
`window.end - window.start = capacity - 1` at every point in time, but
`App::new` sets `window = [0, WINDOW_SIZE]`, whose width is
`WINDOW_SIZE = 150`, not 149. -/
theorem C5_counterexample :
    (App.new WINDOW_SIZE ⟨40, 40, 40, 40⟩ ⟨40, 0, 0, 0⟩).window.2 -
      (App.new WINDOW_SIZE ⟨40, 40, 40, 40⟩ ⟨40, 0, 0, 0⟩).window.1 ≠
      (WINDOW_SIZE : ℚ) - 1 := by
  norm_num [App.new, WINDOW_SIZE, INTERVAL]

/-- **C5** (amended). On every tick both window bounds strictly increase
by exactly 1, and at every point in time
`window.end - window.start = capacity` (the full `WINDOW_SIZE`, not
`capacity - 1`). -/
theorem C5_amended (v0 : LmSensorsValues) (n0 : NvmlValues)
    (ticks : List (LmSensorsValues × NvmlValues)) :
    (∀ (a : App) (v : LmSensorsValues) (n : NvmlValues),
      (a.on_tick v n).window.1 = a.window.1 + 1 ∧
      (a.on_tick v n).window.2 = a.window.2 + 1) ∧
    (runTicks (App.new WINDOW_SIZE v0 n0) ticks).window.2 -
      (runTicks (App.new WINDOW_SIZE v0 n0) ticks).window.1 =
      (WINDOW_SIZE : ℚ) := by
  refine ⟨fun a v n => ⟨rfl, rfl⟩, ?_⟩
  rw [runTicks_window]
  simp [App.new]

/-- **C7** (confirmed). If at every tick position the cross-series
minimum and maximum are below the 0.01 sentinel threshold, both filters
discard every position and the bounds computation returns exactly the
full fallback range `[25.0, 90.0]`. -/
theorem C7_sentinel_fallback (a : App)
    (h : ∀ p ∈ positions a, min3 p < 1 / 100 ∧ max3 p < 1 / 100) :
    y_min a = BOUNDS_MIN ∧ y_max a = BOUNDS_MAX := by
  constructor
  · apply lowBound_of_all_lt
    intro v hv
    obtain ⟨p, hp, rfl⟩ := List.mem_map.mp hv
    exact (h p hp).1
  · apply highBound_of_all_lt
    intro v hv
    obtain ⟨p, hp, rfl⟩ := List.mem_map.mp hv
    exact (h p hp).2

/-- Witness for C7: the all-sentinel initial state with capacity 1 and
all sensors reading 0.0 falls back to `[25, 90]`. -/
theorem C7_sentinel_fallback_witness :
    y_min (App.new 1 ⟨0, 0, 0, 0⟩ ⟨0, 0, 0, 0⟩) = BOUNDS_MIN ∧
    y_max (App.new 1 ⟨0, 0, 0, 0⟩ ⟨0, 0, 0, 0⟩) = BOUNDS_MAX :=
  C7_sentinel_fallback (App.new 1 ⟨0, 0, 0, 0⟩ ⟨0, 0, 0, 0⟩) (by
    intro p hp
    simp [positions, App.new, initSeries] at hp
    subst hp
    norm_num [min3, max3])

/-- **C10** (confirmed). In `App::draw` the gauge titled "Coolant 2"
receives `self.coolant1.last().unwrap().1` — the same value as the
Coolant 1 gauge; it is independent of the stored `coolant2` field, and it
differs from `coolant2` in a reachable state where the two sensors
disagree.  The `coolant2` reading itself is shown in the summary table's
"Curr" column (row index 3). -/
theorem C10_coolant2_gauge :
    (∀ a : App, coolantGauge2Val a = coolantGauge1Val a) ∧
    (∀ (a : App) (q : ℚ),
      coolantGauge2Val { a with coolant2 := q } = coolantGauge2Val a) ∧
    (∀ a : App, (tableCurr a)[3]? = some (some a.coolant2)) ∧
    coolantGauge2Val (App.new 2 ⟨40, 40, 35, 31⟩ ⟨40, 0, 0, 0⟩) ≠
      some (App.new 2 ⟨40, 40, 35, 31⟩ ⟨40, 0, 0, 0⟩).coolant2 := by
  refine ⟨fun a => rfl, fun a q => rfl, fun a => rfl, ?_⟩
  rw [show coolantGauge2Val (App.new 2 ⟨40, 40, 35, 31⟩ ⟨40, 0, 0, 0⟩) =
      (initSeries 2 35).getLast?.map Prod.snd from rfl, initSeries_getLast?]
  norm_num [App.new]

/-- **C6** (confirmed). For every metric and every tick sequence, the
running min is ≤ every value observed since initialization (the initial
snapshot value and every tick's snapshot value) and the running max is ≥
every such value; in particular this brackets the value of the last
`advance`. -/
theorem C6_all_time_extrema (cap : ℕ) (v0 : LmSensorsValues)
    (n0 : NvmlValues) (ticks : List (LmSensorsValues × NvmlValues)) :
    (∀ v ∈ v0.tctl :: ticks.map (fun t => t.1.tctl),
      (runTicks (App.new cap v0 n0) ticks).tctl_mm.1 ≤ v ∧
        v ≤ (runTicks (App.new cap v0 n0) ticks).tctl_mm.2) ∧
    (∀ v ∈ v0.tccd1 :: ticks.map (fun t => t.1.tccd1),
      (runTicks (App.new cap v0 n0) ticks).tccd1_mm.1 ≤ v ∧
        v ≤ (runTicks (App.new cap v0 n0) ticks).tccd1_mm.2) ∧
    (∀ v ∈ v0.coolant1 :: ticks.map (fun t => t.1.coolant1),
      (runTicks (App.new cap v0 n0) ticks).coolant1_mm.1 ≤ v ∧
        v ≤ (runTicks (App.new cap v0 n0) ticks).coolant1_mm.2) ∧
    (∀ v ∈ v0.coolant2 :: ticks.map (fun t => t.1.coolant2),
      (runTicks (App.new cap v0 n0) ticks).coolant2_mm.1 ≤ v ∧
        v ≤ (runTicks (App.new cap v0 n0) ticks).coolant2_mm.2) ∧
    (∀ v ∈ n0.temp :: ticks.map (fun t => t.2.temp),
      (runTicks (App.new cap v0 n0) ticks).gpu_temp_mm.1 ≤ v ∧
        v ≤ (runTicks (App.new cap v0 n0) ticks).gpu_temp_mm.2) := by
  have hmm := runTicks_mm ticks (App.new cap v0 n0)
  refine ⟨?_, ?_, ?_, ?_, ?_⟩
  · rw [hmm.1]
    exact foldl_mmUpdate_bracket v0.tctl _
  · rw [hmm.2.1]
    exact foldl_mmUpdate_bracket v0.tccd1 _
  · rw [hmm.2.2.1]
    exact foldl_mmUpdate_bracket v0.coolant1 _
  · rw [hmm.2.2.2.1]
    exact foldl_mmUpdate_bracket v0.coolant2 _
  · rw [hmm.2.2.2.2]
    exact foldl_mmUpdate_bracket n0.temp _

/-- Witness for C6: after one tick with CPU CTL reading 50 on a store
initialized at 40, the tctl running min/max bracket both observed
values. -/
theorem C6_all_time_extrema_witness :
    ((runTicks (App.new 1 ⟨40, 41, 42, 43⟩ ⟨44, 0, 0, 0⟩)
        [(⟨50, 51, 52, 53⟩, ⟨54, 0, 0, 0⟩)]).tctl_mm.1 ≤ 50 ∧
      (50 : ℚ) ≤ (runTicks (App.new 1 ⟨40, 41, 42, 43⟩ ⟨44, 0, 0, 0⟩)
        [(⟨50, 51, 52, 53⟩, ⟨54, 0, 0, 0⟩)]).tctl_mm.2) ∧
    ((runTicks (App.new 1 ⟨40, 41, 42, 43⟩ ⟨44, 0, 0, 0⟩)
        [(⟨50, 51, 52, 53⟩, ⟨54, 0, 0, 0⟩)]).gpu_temp_mm.1 ≤ 44 ∧
      (44 : ℚ) ≤ (runTicks (App.new 1 ⟨40, 41, 42, 43⟩ ⟨44, 0, 0, 0⟩)
        [(⟨50, 51, 52, 53⟩, ⟨54, 0, 0, 0⟩)]).gpu_temp_mm.2) :=
  ⟨(C6_all_time_extrema 1 ⟨40, 41, 42, 43⟩ ⟨44, 0, 0, 0⟩
      [(⟨50, 51, 52, 53⟩, ⟨54, 0, 0, 0⟩)]).1 50 (by simp),
   (C6_all_time_extrema 1 ⟨40, 41, 42, 43⟩ ⟨44, 0, 0, 0⟩
      [(⟨50, 51, 52, 53⟩, ⟨54, 0, 0, 0⟩)]).2.2.2.2 44 (by simp)⟩

/-- **C8** (counterexample). The claim asserts a position whose
cross-series min is below 0.01 contributes to neither bound.  In the
reachable capacity-2 state where the second position reads
(tctl = 0.0 sentinel, coolant1 = 85, gpu = 85) and the first reads 30
everywhere, the code's `y_max` is `min(85 + 2, 90) = 87`: the
sentinel-min position still contributes its max.  Excluding it from both
computations (as the claim describes, modelled by
`highBoundClaimFiltered`) would give `min(30 + 2, 90) = 32`. -/
theorem C8_counterexample :
    y_max (runTicks (App.new 2 ⟨30, 30, 30, 30⟩ ⟨30, 0, 0, 0⟩)
        [(⟨0, 0, 85, 0⟩, ⟨85, 0, 0, 0⟩)]) = 87 ∧
    highBoundClaimFiltered (runTicks (App.new 2 ⟨30, 30, 30, 30⟩ ⟨30, 0, 0, 0⟩)
        [(⟨0, 0, 85, 0⟩, ⟨85, 0, 0, 0⟩)]) = 32 := by
  have h1 : List.range 1 = [0] := rfl
  constructor
  · norm_num [y_max, highBound, positions, runTicks, App.new, App.on_tick,
      initSeries, h1, max3, foldMax, List.filter_cons, BOUNDS_PADDING,
      BOUNDS_MAX]
  · norm_num [highBoundClaimFiltered, positions, runTicks, App.new,
      App.on_tick, initSeries, h1, min3, max3, foldMax, List.filter_cons,
      BOUNDS_PADDING, BOUNDS_MAX]

/-- **C8** (amended). Each bound filters by its own aggregate: a position
whose cross-series minimum is below 0.01 is excluded from the low-bound
computation, and a position whose cross-series maximum is below 0.01 is
excluded from both computations (its minimum is then also below 0.01);
but a position with sentinel minimum and real maximum still contributes
to the high bound. -/
theorem C8_amended (a b : App)
    (l1 l2 : List (((ℚ × ℚ) × (ℚ × ℚ)) × (ℚ × ℚ)))
    (p : ((ℚ × ℚ) × (ℚ × ℚ)) × (ℚ × ℚ))
    (ha : positions a = l1 ++ p :: l2) (hb : positions b = l1 ++ l2) :
    (min3 p < 1 / 100 → y_min a = y_min b) ∧
    (max3 p < 1 / 100 → y_min a = y_min b ∧ y_max a = y_max b) := by
  have hmin : ∀ h : min3 p < 1 / 100, y_min a = y_min b := by
    intro h
    unfold y_min
    rw [ha, hb, List.map_append, List.map_append, List.map_cons]
    exact lowBound_drop_mid _ _ _ h
  refine ⟨hmin, fun h => ⟨hmin (lt_of_le_of_lt (min3_le_max3 p) h), ?_⟩⟩
  unfold y_max
  rw [ha, hb, List.map_append, List.map_append, List.map_cons]
  exact highBound_drop_mid _ _ _ h

/-- Witness for C8's amended claim: dropping the all-zero position from a
one-position state leaves both bounds unchanged. -/
theorem C8_amended_witness :
    y_min (App.mk [(0, 0)] (0, 0) 0 (0, 0) [(0, 0)] (0, 0) 0 (0, 0)
        [(0, 0)] (0, 0) 0 0 0 (0, 1)) =
      y_min (App.mk [] (0, 0) 0 (0, 0) [] (0, 0) 0 (0, 0)
        [] (0, 0) 0 0 0 (0, 1)) ∧
    y_max (App.mk [(0, 0)] (0, 0) 0 (0, 0) [(0, 0)] (0, 0) 0 (0, 0)
        [(0, 0)] (0, 0) 0 0 0 (0, 1)) =
      y_max (App.mk [] (0, 0) 0 (0, 0) [] (0, 0) 0 (0, 0)
        [] (0, 0) 0 0 0 (0, 1)) :=
  ⟨((C8_amended
      (App.mk [(0, 0)] (0, 0) 0 (0, 0) [(0, 0)] (0, 0) 0 (0, 0)
        [(0, 0)] (0, 0) 0 0 0 (0, 1))
      (App.mk [] (0, 0) 0 (0, 0) [] (0, 0) 0 (0, 0)
        [] (0, 0) 0 0 0 (0, 1))
      [] [] (((0, 0), (0, 0)), (0, 0)) rfl rfl).2
      (by norm_num [max3])).1,
   ((C8_amended
      (App.mk [(0, 0)] (0, 0) 0 (0, 0) [(0, 0)] (0, 0) 0 (0, 0)
        [(0, 0)] (0, 0) 0 0 0 (0, 1))
      (App.mk [] (0, 0) 0 (0, 0) [] (0, 0) 0 (0, 0)
        [] (0, 0) 0 0 0 (0, 1))
      [] [] (((0, 0), (0, 0)), (0, 0)) rfl rfl).2
      (by norm_num [max3])).2⟩

/-- **C9** (counterexample). The claim asserts the core exposes the full
ordered sample sequence for all five tracked metrics.  For Coolant 2
(and CPU CCD) only the scalar latest value and the min/max pair are
retained: two runs whose coolant2 histories differ (30, 28, 29 versus
28, 30, 29) end in **identical** `App` states, so no view of the state
can expose the coolant2 sample sequence. -/
theorem C9_counterexample :
    runTicks (App.new 2 ⟨40, 40, 40, 30⟩ ⟨40, 0, 0, 0⟩)
        [(⟨40, 40, 40, 28⟩, ⟨40, 0, 0, 0⟩), (⟨40, 40, 40, 29⟩, ⟨40, 0, 0, 0⟩)] =
      runTicks (App.new 2 ⟨40, 40, 40, 28⟩ ⟨40, 0, 0, 0⟩)
        [(⟨40, 40, 40, 30⟩, ⟨40, 0, 0, 0⟩), (⟨40, 40, 40, 29⟩, ⟨40, 0, 0, 0⟩)] ∧
    (⟨40, 40, 40, 30⟩ : LmSensorsValues) ≠ ⟨40, 40, 40, 28⟩ := by
  constructor
  · norm_num [runTicks, App.new, App.on_tick, initSeries, mmUpdate]
  · intro h
    have := congrArg LmSensorsValues.coolant2 h
    norm_num at this

/-- **C9** (amended). After every tick the core exposes the latest value
of all five tracked metrics (the newest sample of the three charted
series, and the scalar fields for CPU CCD and Coolant 2, which retain
no sample sequence), together with the all-time min/max pairs. -/
theorem C9_amended (cap : ℕ) (v0 : LmSensorsValues) (n0 : NvmlValues)
    (ts : List (LmSensorsValues × NvmlValues)) (v : LmSensorsValues)
    (n : NvmlValues) :
    (runTicks (App.new cap v0 n0) (ts ++ [(v, n)])).tccd1 = v.tccd1 ∧
    (runTicks (App.new cap v0 n0) (ts ++ [(v, n)])).coolant2 = v.coolant2 ∧
    (runTicks (App.new cap v0 n0) (ts ++ [(v, n)])).tctl.getLast?.map
      Prod.snd = some v.tctl ∧
    (runTicks (App.new cap v0 n0) (ts ++ [(v, n)])).coolant1.getLast?.map
      Prod.snd = some v.coolant1 ∧
    (runTicks (App.new cap v0 n0) (ts ++ [(v, n)])).gpu_temp.getLast?.map
      Prod.snd = some n.temp := by
  rw [runTicks_concat]
  refine ⟨rfl, rfl, ?_, ?_, ?_⟩ <;> simp [App.on_tick]

end SensorsMon
